import Mathlib

/-!
# Verification of the minio-go client core against its specification

The repository excerpt contains the functional test suite
(`api_functional_v2_test.go`) and an example program; the library code the
tests exercise (object reader, part planner, upload coordinator, presigned
URL builder, bucket addressing) is not part of the excerpt.  Those components
are therefore modelled from the specification (`spec.md`), faithful to its
words, and the testable properties are proved about the models.

Bytes are modelled as natural numbers, byte buffers as lists, and fallible
operations return `Except`.
-/

namespace MinioSpec

/-- Modelled from the spec: `ObjectInfo` is an immutable snapshot holding the
object's size (key, last-modified, entity tag and content type are omitted as
irrelevant to the claims); obtained via a metadata probe and cached once per
Object Reader instance (spec section 3).  The library source (`api.go` /
`api-get` code) is not in the repository excerpt. -/
structure ObjectInfo where
  size : Int
deriving DecidableEq, Repr

/-- Modelled from the spec: the Object Reader state (spec sections 3 and 4.3):
the full remote object content (the remote store's view, served to the reader
through ranged requests), the current logical offset (int64), and the
open/closed flag.  The live byte-range stream is an optimization (it avoids
redundant round-trips) and does not affect the bytes delivered, so it is not
represented.  The library source is not in the repository excerpt. -/
structure Object where
  content : List Nat
  offset : Int
  isClosed : Bool
deriving DecidableEq, Repr

/-- Modelled from the spec: the remote store serves object GET with a
`Range: bytes=<start>-` header; the reader uses this exclusively for ranged
access (spec section 6).  `rangedGet content start n` is the byte payload of a
ranged GET anchored at `start` delivering at most `n` bytes. -/
def rangedGet (content : List Nat) (start n : Nat) : List Nat :=
  (content.drop start).take n

/-- Modelled from the spec: `Stat()` returns the cached ObjectInfo
(spec section 4.3); fails on a closed reader (stream-state error,
spec section 7). -/
def Object.stat (o : Object) : Except String ObjectInfo :=
  if o.isClosed then .error "Object is already closed"
  else .ok ⟨(o.content.length : Int)⟩

/-- Modelled from the spec: `Seek(offset, whence)` computes the new logical
offset relative to start (whence 0), the current offset (whence 1) or the
object's end (whence 2); fails if the resulting offset is negative, and in
"from end" mode a positive offset is invalid because it exceeds the
addressable object (spec section 4.3); the test suite confirms the whence
encoding 0/1/2 and the whence-2 error (`TestGetObjectReadSeekFunctionalV2`). -/
def Object.seek (o : Object) (off : Int) (whence : Nat) :
    Except String (Int × Object) :=
  if o.isClosed then .error "Object is already closed"
  else if whence = 0 then
    if off < 0 then .error "Negative position not allowed for whence 0"
    else .ok (off, { o with offset := off })
  else if whence = 1 then
    if o.offset + off < 0 then .error "Negative position not allowed for whence 1"
    else .ok (o.offset + off, { o with offset := o.offset + off })
  else if whence = 2 then
    if 0 < off then .error "Seeking beyond the end of the object is invalid for whence 2"
    else if (o.content.length : Int) + off < 0 then
      .error "Negative position not allowed for whence 2"
    else .ok ((o.content.length : Int) + off,
      { o with offset := (o.content.length : Int) + off })
  else .error "Invalid whence"

/-- Modelled from the spec: `Read(buffer)` opens a ranged GET anchored at the
logical offset and up to the object's end, delivers up to the buffer's length
and advances the logical offset by the bytes actually delivered; end-of-stream
once the object's size bound is reached (spec section 4.3). -/
def Object.read (o : Object) (n : Nat) : Except String (List Nat × Object) :=
  if o.isClosed then .error "Object is already closed"
  else
    let bytes := rangedGet o.content o.offset.toNat n
    .ok (bytes, { o with offset := o.offset + (bytes.length : Int) })

/-- Reading to the end: one `Read` with a buffer as large as the whole object,
after which the next read reports end-of-stream.  Returns the delivered
bytes. -/
def Object.readToEnd (o : Object) : Except String (List Nat) :=
  match o.read o.content.length with
  | .error e => .error e
  | .ok (bytes, _) => .ok bytes

/-- Modelled from the spec: `ReadAt(buffer, offset)` is stateless with respect
to the reader's cursor; it issues an independent ranged GET for exactly
`[offset, offset+len(buffer))`, clipped to the object's size, and reports
end-of-stream exactly when the requested range extends past the object's end
(spec section 4.3).  Returns the delivered bytes and the end-of-stream flag. -/
def Object.readAt (o : Object) (bufLen : Nat) (k : Int) :
    Except String (List Nat × Bool) :=
  if o.isClosed then .error "Object is already closed"
  else if k < 0 then .error "ReadAt offset cannot be negative"
  else
    let bytes := rangedGet o.content k.toNat bufLen
    .ok (bytes, decide ((o.content.length : Int) < k + (bufLen : Int)))

/-- Modelled from the spec: `Close()` releases the live stream; a second
`Close()` call is reported as an error (already-closed), since callers rely on
this to detect double-release bugs (spec sections 4.3 and 7); the test suite
confirms this (`TestGetObjectClosedTwiceV2`). -/
def Object.close (o : Object) : Except String Object :=
  if o.isClosed then .error "Object is already closed"
  else .ok { o with isClosed := true }

theorem take_of_ge_length {α : Type} (l : List α) (n : Nat) (h : l.length ≤ n) :
    l.take n = l := by
  induction l generalizing n with
  | nil => simp
  | cons a t ih =>
    cases n with
    | zero => simp at h
    | succ m =>
      simp only [List.take_succ_cons]
      rw [ih m (by simpa using h)]

theorem readToEnd_open (c : List Nat) (pos : Int) :
    (Object.mk c pos false).readToEnd = .ok (c.drop pos.toNat) := by
  simp only [Object.readToEnd, Object.read, rangedGet, if_neg Bool.false_ne_true]
  rw [take_of_ge_length]
  exact (List.length_drop _ _) ▸ Nat.sub_le _ _

theorem seek_open_not_closed (o : Object) (off : Int) (whence : Nat)
    (pos : Int) (o' : Object) (h : o.seek off whence = .ok (pos, o')) :
    o.isClosed = false := by
  cases hc : o.isClosed
  · rfl
  · simp [Object.seek, hc] at h

theorem seek_ok_dest (o : Object) (off : Int) (whence : Nat)
    (pos : Int) (o' : Object) (h : o.seek off whence = .ok (pos, o')) :
    o' = { o with offset := pos } ∧ 0 ≤ pos := by
  have hc := seek_open_not_closed o off whence pos o' h
  simp only [Object.seek, hc, Bool.false_eq_true, if_false] at h
  split_ifs at h <;>
      simp only [Except.ok.injEq, Prod.mk.injEq, reduceCtorEq] at h
  · obtain ⟨hp, ho⟩ := h
    subst hp
    exact ⟨by rw [← ho]; simp [hc], by omega⟩
  · obtain ⟨hp, ho⟩ := h
    subst hp
    exact ⟨by rw [← ho]; simp [hc], by omega⟩
  · obtain ⟨hp, ho⟩ := h
    subst hp
    refine ⟨by rw [← ho]; simp [hc], ?_⟩
    have := Int.ofNat_nonneg o.content.length
    omega

/-- C1: for every object previously uploaded with known content and for all
valid (offset, whence) seek arguments — those on which `Seek` succeeds —
calling `Seek` on the Object Reader and then reading to the end returns
exactly the bytes of the object starting at the computed offset. -/
theorem C1_seek_read_roundtrip (o : Object) (off : Int) (whence : Nat)
    (pos : Int) (o' : Object) (h : o.seek off whence = .ok (pos, o')) :
    o'.readToEnd = .ok (o.content.drop pos.toNat) := by
  obtain ⟨ho', _⟩ := seek_ok_dest o off whence pos o' h
  have hc := seek_open_not_closed o off whence pos o' h
  subst ho'
  have : ({ o with offset := pos } : Object) = Object.mk o.content pos false := by
    cases o
    simp_all
  rw [this, readToEnd_open]

/-- C1 witness: seeking to offset 2 from the start of a 5-byte object and
reading to the end yields the last 3 bytes. -/
theorem C1_witness :
    (Object.mk [10, 11, 12, 13, 14] 0 false).seek 2 0 =
        .ok (2, Object.mk [10, 11, 12, 13, 14] 2 false) ∧
    (Object.mk [10, 11, 12, 13, 14] 2 false).readToEnd = .ok [12, 13, 14] :=
  ⟨rfl,
   C1_seek_read_roundtrip (Object.mk [10, 11, 12, 13, 14] 0 false) 2 0 2
     (Object.mk [10, 11, 12, 13, 14] 2 false) rfl⟩

/-- C2: for every object of known content, every offset `k ≥ 0` and every
buffer length, `ReadAt(buf, k)` returns the same bytes as slicing the full
object content at `[k, k+len(buf))`, clipped at the object's end, and reports
end-of-stream exactly when the range extends past the end; the result is
independent of the reader's cursor, hence of any prior `Read` or `Seek` call
on the same reader. -/
theorem C2_readAt_slices (c : List Nat) (off1 off2 : Int) (bufLen : Nat)
    (k : Int) (hk : 0 ≤ k) :
    (Object.mk c off1 false).readAt bufLen k =
      .ok ((c.drop k.toNat).take bufLen,
           decide ((c.length : Int) < k + (bufLen : Int))) ∧
    (Object.mk c off1 false).readAt bufLen k =
      (Object.mk c off2 false).readAt bufLen k := by
  constructor
  · simp [Object.readAt, rangedGet, not_lt.mpr hk]
  · rfl

/-- C2 witness: `ReadAt` with a 2-byte buffer at offset 3 of a 5-byte object
returns bytes 3 and 4 with no end-of-stream, for two readers whose cursors
differ. -/
theorem C2_witness :
    (0 : Int) ≤ 3 ∧
    ((Object.mk [20, 21, 22, 23, 24] 0 false).readAt 2 3 =
        .ok ([23, 24], false) ∧
     (Object.mk [20, 21, 22, 23, 24] 0 false).readAt 2 3 =
        (Object.mk [20, 21, 22, 23, 24] 4 false).readAt 2 3) :=
  ⟨by decide, by
    have := C2_readAt_slices [20, 21, 22, 23, 24] 0 4 2 3 (by decide)
    simpa using this⟩

/-- The per-whence target offset of a `Seek` call: relative to start for
whence 0, to the current offset for whence 1, to the object's end for
whence 2. -/
def seekTarget (o : Object) (off : Int) (whence : Nat) : Int :=
  if whence = 0 then off
  else if whence = 1 then o.offset + off
  else (o.content.length : Int) + off

/-- C3: on an open Object Reader with known size, `Seek(offset, whence)`
computes the new logical offset relative to start (whence 0), the current
offset (whence 1) or the object's end (whence 2) and returns that offset;
it fails when the resulting offset is negative, and fails when whence 2 is
used with a positive offset (past the addressable object). -/
theorem C3_seek_semantics (o : Object) (off : Int) (whence : Nat)
    (hopen : o.isClosed = false) (hw : whence ≤ 2) :
    (∀ pos o', o.seek off whence = .ok (pos, o') →
        pos = seekTarget o off whence ∧ o'.offset = pos ∧ 0 ≤ pos ∧
        o'.content = o.content) ∧
    (seekTarget o off whence < 0 → ∃ e, o.seek off whence = .error e) ∧
    (whence = 2 → 0 < off → ∃ e, o.seek off whence = .error e) := by
  interval_cases whence
  · refine ⟨fun pos o' h => ?_, fun hneg => ?_, fun h2 => by simp at h2⟩
    · simp only [Object.seek, hopen, Bool.false_eq_true, if_false] at h
      norm_num at h
      split_ifs at h with hlt <;>
          simp only [Except.ok.injEq, Prod.mk.injEq, reduceCtorEq] at h
      obtain ⟨hp, ho⟩ := h
      subst hp
      subst ho
      refine ⟨by simp [seekTarget], rfl, by omega, rfl⟩
    · simp only [seekTarget] at hneg
      norm_num at hneg
      refine ⟨"Negative position not allowed for whence 0", ?_⟩
      simp only [Object.seek, hopen, Bool.false_eq_true, if_false]
      norm_num
      intro hge
      omega
  · refine ⟨fun pos o' h => ?_, fun hneg => ?_, fun h2 => by simp at h2⟩
    · simp only [Object.seek, hopen, Bool.false_eq_true, if_false] at h
      norm_num at h
      split_ifs at h with hlt <;>
          simp only [Except.ok.injEq, Prod.mk.injEq, reduceCtorEq] at h
      obtain ⟨hp, ho⟩ := h
      subst hp
      subst ho
      refine ⟨by simp [seekTarget], rfl, by omega, rfl⟩
    · simp only [seekTarget] at hneg
      norm_num at hneg
      refine ⟨"Negative position not allowed for whence 1", ?_⟩
      simp only [Object.seek, hopen, Bool.false_eq_true, if_false]
      norm_num
      intro hge
      omega
  · refine ⟨fun pos o' h => ?_, fun hneg => ?_, fun _ hpos => ?_⟩
    · simp only [Object.seek, hopen, Bool.false_eq_true, if_false] at h
      norm_num at h
      split_ifs at h with hgt hlt <;>
          simp only [Except.ok.injEq, Prod.mk.injEq, reduceCtorEq] at h
      obtain ⟨hp, ho⟩ := h
      subst hp
      subst ho
      refine ⟨by simp [seekTarget], rfl, by omega, rfl⟩
    · simp only [seekTarget] at hneg
      norm_num at hneg
      refine ⟨"Negative position not allowed for whence 2", ?_⟩
      simp only [Object.seek, hopen, Bool.false_eq_true, if_false]
      norm_num
      have hgt : ¬(0 : Int) < off := by
        have := Int.ofNat_nonneg o.content.length
        omega
      rw [if_neg hgt, if_pos hneg]
    · refine ⟨"Seeking beyond the end of the object is invalid for whence 2", ?_⟩
      simp only [Object.seek, hopen, Bool.false_eq_true, if_false]
      norm_num
      intro hle
      omega

/-- C3 witness: concrete instance on a 4-byte open reader at offset 1. -/
theorem C3_witness :
    ((Object.mk [1, 2, 3, 4] 1 false).isClosed = false ∧ (2 : Nat) ≤ 2) ∧
    ((∀ pos o', (Object.mk [1, 2, 3, 4] 1 false).seek (-1) 2 = .ok (pos, o') →
        pos = seekTarget (Object.mk [1, 2, 3, 4] 1 false) (-1) 2 ∧
        o'.offset = pos ∧ 0 ≤ pos ∧ o'.content = [1, 2, 3, 4]) ∧
     (seekTarget (Object.mk [1, 2, 3, 4] 1 false) (-1) 2 < 0 →
        ∃ e, (Object.mk [1, 2, 3, 4] 1 false).seek (-1) 2 = .error e) ∧
     ((2 : Nat) = 2 → (0 : Int) < -1 →
        ∃ e, (Object.mk [1, 2, 3, 4] 1 false).seek (-1) 2 = .error e)) :=
  ⟨⟨rfl, by decide⟩,
   C3_seek_semantics (Object.mk [1, 2, 3, 4] 1 false) (-1) 2 rfl (by decide)⟩

/-- C4: on every open Object Reader, the first call to `Close` succeeds and a
second call to `Close` returns an already-closed error rather than succeeding
silently. -/
theorem C4_close_twice (o : Object) (hopen : o.isClosed = false) :
    ∃ o', o.close = .ok o' ∧ ∃ e, o'.close = .error e := by
  refine ⟨{ o with isClosed := true }, ?_, "Object is already closed", ?_⟩
  · simp [Object.close, hopen]
  · simp [Object.close]

/-- C4 witness: closing a concrete open reader twice. -/
theorem C4_witness :
    (Object.mk [7] 0 false).isClosed = false ∧
    ∃ o', (Object.mk [7] 0 false).close = .ok o' ∧
      ∃ e, o'.close = .error e :=
  ⟨rfl, C4_close_twice (Object.mk [7] 0 false) rfl⟩

/-- Ceiling division on naturals, `ceilDiv a b = ⌈a / b⌉`. -/
def ceilDiv (a b : Nat) : Nat := (a + b - 1) / b

theorem ceilDiv_eq (a b : Nat) : ceilDiv a b = a ⌈/⌉ b :=
  (Nat.ceilDiv_eq_add_pred_div a b).symm

/-- One entry of a `PartPlan`: 1-based part number, byte offset of the part's
first byte, and the part's length (spec section 3). -/
structure PartSpec where
  number : Nat
  start : Nat
  len : Nat
deriving DecidableEq, Repr

/-- Modelled from the spec: with a known total size the Part Planner chooses
the smallest part size at or above the configured minimum such that
`ceil(size / part size) ≤ max part count` (spec section 4.4); that smallest
value is `max minPartSize (ceil (totalSize / maxParts))`.  The library source
(`api-multipart` code) is not in the repository excerpt. -/
def optimalPartSize (totalSize minPartSize maxParts : Nat) : Nat :=
  max minPartSize (ceilDiv totalSize maxParts)

/-- Modelled from the spec: the parts are emitted in order, all of the chosen
part size except a final, possibly smaller, remainder part; part numbers are
1-based and contiguous (spec sections 3 and 4.4).  `fuel` is a structural
bound on the number of emitted parts; `partPlan` supplies a sufficient one. -/
def buildParts : Nat → Nat → Nat → Nat → Nat → List PartSpec
  | 0, _, _, _, _ => []
  | _ + 1, _, _, _, 0 => []
  | fuel + 1, p, num, start, r + 1 =>
    if r + 1 ≤ p then [⟨num, start, r + 1⟩]
    else ⟨num, start, p⟩ :: buildParts fuel p (num + 1) (start + p) (r + 1 - p)

/-- Modelled from the spec: the Part Planner's contract
`plan(total size, min part size, max part count) → ordered PartPlan`
(spec section 4.4); a zero-byte input yields zero parts (the single-shot
upload path is outside the planner's concern). -/
def partPlan (totalSize minPartSize maxParts : Nat) : List PartSpec :=
  buildParts totalSize (optimalPartSize totalSize minPartSize maxParts) 1 0 totalSize

/-- `contiguousFrom s parts` holds when the parts tile the byte range starting
at `s` one after another, with no gap and no overlap. -/
def contiguousFrom : Nat → List PartSpec → Bool
  | _, [] => true
  | s, part :: rest => part.start == s && contiguousFrom (s + part.len) rest

theorem buildParts_sum (fuel p num start r : Nat) (hp : 1 ≤ p) (hr : r ≤ fuel) :
    ((buildParts fuel p num start r).map PartSpec.len).sum = r := by
  induction fuel generalizing num start r with
  | zero =>
    interval_cases r
    simp [buildParts]
  | succ n ih =>
    cases r with
    | zero => simp [buildParts]
    | succ m =>
      by_cases hle : m + 1 ≤ p
      · simp [buildParts, hle]
      · simp only [buildParts, if_neg hle, List.map_cons, List.sum_cons]
        rw [ih (num + 1) (start + p) (m + 1 - p) (by omega)]
        omega

theorem buildParts_length (fuel p num start r : Nat) (hp : 1 ≤ p)
    (hr : r ≤ fuel) :
    (buildParts fuel p num start r).length = ceilDiv r p := by
  induction fuel generalizing num start r with
  | zero =>
    interval_cases r
    simp [buildParts, ceilDiv, Nat.div_eq_of_lt (by omega : p - 1 < p)]
  | succ n ih =>
    cases r with
    | zero => simp [buildParts, ceilDiv, Nat.div_eq_of_lt (by omega : p - 1 < p)]
    | succ m =>
      by_cases hle : m + 1 ≤ p
      · have h1 : m + 1 + p - 1 = m + p := by omega
        have h2 : (m + p) / p = 1 := by
          rw [Nat.add_div_right m hp, Nat.div_eq_of_lt (by omega)]
        simp [buildParts, hle, ceilDiv, h1, h2]
      · simp only [buildParts, if_neg hle, List.length_cons]
        rw [ih (num + 1) (start + p) (m + 1 - p) (by omega)]
        have h1 : m + 1 - p + p - 1 = m := by omega
        have h2 : m + 1 + p - 1 = m + p := by omega
        simp only [ceilDiv, h1, h2]
        rw [Nat.add_div_right m hp]

theorem buildParts_numbers (fuel p num start r : Nat) (hp : 1 ≤ p)
    (hr : r ≤ fuel) :
    (buildParts fuel p num start r).map PartSpec.number =
      List.range' num (buildParts fuel p num start r).length := by
  induction fuel generalizing num start r with
  | zero =>
    interval_cases r
    simp [buildParts]
  | succ n ih =>
    cases r with
    | zero => simp [buildParts]
    | succ m =>
      by_cases hle : m + 1 ≤ p
      · simp [buildParts, hle, List.range']
      · simp only [buildParts, if_neg hle, List.map_cons, List.length_cons]
        rw [List.range'_succ]
        rw [ih (num + 1) (start + p) (m + 1 - p) (by omega)]

theorem buildParts_len_le (fuel p num start r : Nat) :
    ∀ part ∈ buildParts fuel p num start r, part.len ≤ p := by
  induction fuel generalizing num start r with
  | zero =>
    intro part hpart
    simp [buildParts] at hpart
  | succ n ih =>
    cases r with
    | zero =>
      intro part hpart
      simp [buildParts] at hpart
    | succ m =>
      by_cases hle : m + 1 ≤ p
      · intro part hpart
        simp [buildParts, hle] at hpart
        simp [hpart, hle]
      · intro part hpart
        simp only [buildParts, if_neg hle, List.mem_cons] at hpart
        rcases hpart with h | h
        · simp [h]
        · exact ih (num + 1) (start + p) (m + 1 - p) part h

theorem buildParts_contiguous (fuel p num start r : Nat) :
    contiguousFrom start (buildParts fuel p num start r) = true := by
  induction fuel generalizing num start r with
  | zero => simp [buildParts, contiguousFrom]
  | succ n ih =>
    cases r with
    | zero => simp [buildParts, contiguousFrom]
    | succ m =>
      by_cases hle : m + 1 ≤ p
      · simp [buildParts, hle, contiguousFrom]
      · simp only [buildParts, if_neg hle, contiguousFrom, Bool.and_eq_true,
          beq_iff_eq]
        refine ⟨?_, ih (num + 1) (start + p) (m + 1 - p)⟩
        simp

theorem contiguousFrom_start_le (l : List PartSpec) (s : Nat)
    (h : contiguousFrom s l = true) : ∀ b ∈ l, s ≤ b.start := by
  induction l generalizing s with
  | nil => intro b hb; simp at hb
  | cons a t ih =>
    simp only [contiguousFrom, Bool.and_eq_true, beq_iff_eq] at h
    intro b hb
    rcases List.mem_cons.mp hb with hb | hb
    · exact hb ▸ h.1.ge
    · exact le_trans (by omega) (ih (s + a.len) h.2 b hb)

theorem contiguousFrom_pairwise (l : List PartSpec) (s : Nat)
    (h : contiguousFrom s l = true) :
    l.Pairwise (fun a b => a.start + a.len ≤ b.start) := by
  induction l generalizing s with
  | nil => exact List.Pairwise.nil
  | cons a t ih =>
    simp only [contiguousFrom, Bool.and_eq_true, beq_iff_eq] at h
    refine List.Pairwise.cons (fun b hb => ?_) (ih (s + a.len) h.2)
    have := contiguousFrom_start_le t (s + a.len) h.2 b hb
    omega

theorem partPlan_count_le (S M K : Nat) (hM : 1 ≤ M) (hK : 1 ≤ K) :
    ceilDiv S (optimalPartSize S M K) ≤ K := by
  have hp : 1 ≤ optimalPartSize S M K := le_trans hM (le_max_left _ _)
  rw [ceilDiv_eq, ceilDiv_le_iff_le_mul (by omega : 0 < optimalPartSize S M K)]
  have h1 : S ≤ K * (S ⌈/⌉ K) := (ceilDiv_le_iff_le_mul (by omega : 0 < K)).1 le_rfl
  have h2 : S ⌈/⌉ K ≤ optimalPartSize S M K := by
    rw [← ceilDiv_eq]
    exact le_max_right _ _
  calc S ≤ K * (S ⌈/⌉ K) := h1
    _ ≤ K * optimalPartSize S M K := Nat.mul_le_mul_left K h2
    _ = optimalPartSize S M K * K := Nat.mul_comm _ _

/-- C5: for every total size `S`, minimum part size `M ≥ 1` and maximum part
count `K ≥ 1`, the Part Planner's plan is an ordered sequence of 1-based
contiguous part numbers whose lengths sum exactly to `S`, whose part count is
at most `K`, in which no part exceeds `max M (ceil (S / K))`, and in which no
two parts overlap (each part ends at or before the next part's start). -/
theorem C5_partPlan_spec (S M K : Nat) (hM : 1 ≤ M) (hK : 1 ≤ K) :
    ((partPlan S M K).map PartSpec.len).sum = S ∧
    (partPlan S M K).length ≤ K ∧
    (∀ part ∈ partPlan S M K, part.len ≤ max M (ceilDiv S K)) ∧
    (partPlan S M K).map PartSpec.number =
      List.range' 1 (partPlan S M K).length ∧
    (partPlan S M K).Pairwise (fun a b => a.start + a.len ≤ b.start) := by
  have hp : 1 ≤ optimalPartSize S M K := le_trans hM (le_max_left _ _)
  simp only [partPlan]
  refine ⟨buildParts_sum S _ 1 0 S hp le_rfl, ?_,
    buildParts_len_le S _ 1 0 S,
    buildParts_numbers S _ 1 0 S hp le_rfl,
    contiguousFrom_pairwise _ 0 (buildParts_contiguous S _ 1 0 S)⟩
  rw [buildParts_length S _ 1 0 S hp le_rfl]
  exact partPlan_count_le S M K hM hK

/-- C5 witness: a plan over 11 bytes with minimum part size 5 and at most 3
parts is the three parts (1, 0, 5), (2, 5, 5), (3, 10, 1). -/
theorem C5_witness :
    ((1 : Nat) ≤ 5 ∧ (1 : Nat) ≤ 3) ∧
    (((partPlan 11 5 3).map PartSpec.len).sum = 11 ∧
     (partPlan 11 5 3).length ≤ 3 ∧
     (∀ part ∈ partPlan 11 5 3, part.len ≤ max 5 (ceilDiv 11 3)) ∧
     (partPlan 11 5 3).map PartSpec.number =
       List.range' 1 (partPlan 11 5 3).length ∧
     (partPlan 11 5 3).Pairwise (fun a b => a.start + a.len ≤ b.start)) :=
  ⟨⟨by decide, by decide⟩, C5_partPlan_spec 11 5 3 (by decide) (by decide)⟩

/-- Modelled from the spec: the Upload Coordinator's session states
`Initiated → InProgress → (Completed | Aborted | Failed)` (spec section 4.5). -/
inductive SessionStatus
  | initiated
  | inProgress
  | completed
  | aborted
  | failed
deriving DecidableEq, Repr

/-- Modelled from the spec: an UploadSession carries the opaque upload
identifier issued by the remote store, the bucket, the key and the session
status (spec section 3); the per-part records are irrelevant to claim C6 and
omitted.  The library source (`api-multipart` code) is not in the repository
excerpt. -/
structure UploadSession where
  uploadId : String
  bucket : String
  key : String
  status : SessionStatus
deriving DecidableEq, Repr

/-- Modelled from the spec: the multipart PutObject path consumes the input
stream sequentially, one buffered chunk at a time; a chunk that delivers an
error means the input stream terminated early, which must leave the session
`Failed` with the upload identifier surfaced to the caller — never silently
discarded (spec section 4.5).  Returns the byte count and the completed
session, or the stream's error paired with the failed session. -/
def uploadStream (sess : UploadSession) :
    List (Except String (List Nat)) →
      Except (String × UploadSession) (Nat × UploadSession)
  | [] => .ok (0, { sess with status := .completed })
  | .error e :: _ => .error (e, { sess with status := .failed })
  | .ok bytes :: rest =>
    match uploadStream { sess with status := .inProgress } rest with
    | .error es => .error es
    | .ok (n, s') => .ok (bytes.length + n, s')

/-- Modelled from the spec: `Abort()` tells the remote store to discard the
upload; aborting an already-aborted or already-completed session is a
reported condition (spec section 4.5). -/
def abortUpload (sess : UploadSession) : Except String UploadSession :=
  match sess.status with
  | .completed => .error "cannot abort a completed upload"
  | .aborted => .error "upload already aborted"
  | _ => .ok { sess with status := .aborted }

/-- C6: for every multipart upload whose input stream terminates early with an
error — any number of good chunks followed by an error — `PutObject` fails and
surfaces exactly that error, and the session is left `Failed` with its upload
identifier, bucket and key intact, so that the caller can afterwards abort the
incomplete upload; the session is never silently discarded. -/
theorem C6_early_termination_surfaced (sess : UploadSession)
    (goods : List (List Nat)) (e : String)
    (rest : List (Except String (List Nat))) :
    ∃ s', uploadStream sess (goods.map Except.ok ++ .error e :: rest) =
        .error (e, s') ∧
      s'.uploadId = sess.uploadId ∧ s'.bucket = sess.bucket ∧
      s'.key = sess.key ∧ s'.status = .failed ∧
      ∃ s'', abortUpload s' = .ok s'' := by
  induction goods generalizing sess with
  | nil => exact ⟨{ sess with status := .failed }, rfl, rfl, rfl, rfl, rfl, _, rfl⟩
  | cons g t ih =>
    obtain ⟨s', h1, h2, h3, h4, h5, h6⟩ := ih { sess with status := .inProgress }
    exact ⟨s', by simp only [List.map_cons, List.cons_append, uploadStream,
      List.append_eq, h1], h2, h3, h4, h5, h6⟩

/-- Modelled from the spec: protocol errors are structured (code, message)
pairs returned by the remote store and surfaced intact (spec section 7).
`ToErrorResponse` in the client exposes exactly these two fields
(`TestMakeBucketErrorV2`, `TestFunctionalV2`). -/
structure ErrorResponse where
  code : String
  message : String
deriving DecidableEq, Repr

/-- A bucket known to the remote store, with its caller-ownership flag. -/
structure Bucket where
  name : String
  ownedByCaller : Bool
deriving DecidableEq, Repr

/-- Modelled from the spec: the remote store's bucket table, the external
collaborator behind `MakeBucket` / `RemoveBucket` (spec sections 1 and 6). -/
structure Store where
  buckets : List Bucket
deriving DecidableEq, Repr

def bucketExists (st : Store) (name : String) : Bool :=
  st.buckets.any (fun b => b.name == name)

def bucketOwned (st : Store) (name : String) : Bool :=
  st.buckets.any (fun b => b.name == name && b.ownedByCaller)

/-- Modelled from the spec: re-creating an existing bucket is rejected by the
remote store with the resource-already-exists protocol error — code
`BucketAlreadyOwnedByYou` when the caller owns the bucket, `BucketAlreadyExists`
otherwise — and the client surfaces the code and message intact, never
swallowed (spec section 7; `TestMakeBucketErrorV2` checks the two codes). -/
def MakeBucket (st : Store) (name : String) : Except ErrorResponse Store :=
  if bucketOwned st name then
    .error ⟨"BucketAlreadyOwnedByYou",
      "Your previous request to create the named bucket succeeded and you already own it."⟩
  else if bucketExists st name then
    .error ⟨"BucketAlreadyExists",
      "The requested bucket name is not available."⟩
  else .ok ⟨⟨name, true⟩ :: st.buckets⟩

/-- Modelled from the spec: removing a bucket that does not exist is rejected
with the resource-not-found protocol error whose message is
"The specified bucket does not exist", surfaced intact
(spec section 7; `TestFunctionalV2` checks the exact message). -/
def RemoveBucket (st : Store) (name : String) : Except ErrorResponse Store :=
  if bucketExists st name then
    .ok ⟨st.buckets.filter (fun b => !(b.name == name))⟩
  else .error ⟨"NoSuchBucket", "The specified bucket does not exist"⟩

/-- C7: operations rejected by the remote store surface the structured
protocol error with code and message intact: re-creating a bucket that was
just created fails with code `BucketAlreadyExists` or
`BucketAlreadyOwnedByYou`, and removing a nonexistent bucket fails with the
message "The specified bucket does not exist"; the error value the caller
sees is the store's structured error itself, never swallowed or replaced. -/
theorem C7_protocol_errors_intact (st st' : Store) (name : String)
    (hmk : MakeBucket st name = .ok st') :
    (∃ err, MakeBucket st' name = .error err ∧
       (err.code = "BucketAlreadyExists" ∨
        err.code = "BucketAlreadyOwnedByYou")) ∧
    (∀ st0 : Store, bucketExists st0 name = false →
       ∃ err, RemoveBucket st0 name = .error err ∧
         err.message = "The specified bucket does not exist") := by
  constructor
  · have hst' : st' = ⟨⟨name, true⟩ :: st.buckets⟩ := by
      simp only [MakeBucket] at hmk
      split_ifs at hmk <;> simp_all
    subst hst'
    refine ⟨⟨"BucketAlreadyOwnedByYou",
      "Your previous request to create the named bucket succeeded and you already own it."⟩,
      ?_, Or.inr rfl⟩
    simp [MakeBucket, bucketOwned]
  · intro st0 h0
    refine ⟨⟨"NoSuchBucket", "The specified bucket does not exist"⟩, ?_, rfl⟩
    simp [RemoveBucket, h0]

/-- C7 witness: creating the bucket "bkt" in an empty store, re-creating it,
and removing it from an empty store, with the concrete errors. -/
theorem C7_witness :
    MakeBucket ⟨[]⟩ "bkt" = .ok ⟨[⟨"bkt", true⟩]⟩ ∧
    ((∃ err, MakeBucket ⟨[⟨"bkt", true⟩]⟩ "bkt" = .error err ∧
        (err.code = "BucketAlreadyExists" ∨
         err.code = "BucketAlreadyOwnedByYou")) ∧
     (∀ st0 : Store, bucketExists st0 "bkt" = false →
        ∃ err, RemoveBucket st0 "bkt" = .error err ∧
          err.message = "The specified bucket does not exist")) :=
  ⟨rfl, C7_protocol_errors_intact ⟨[]⟩ ⟨[⟨"bkt", true⟩]⟩ "bkt" rfl⟩

/-- Whether a bucket name contains a literal dot. -/
def containsDot (s : String) : Bool :=
  s.data.any (fun c => c == '.')

/-- The host part of a request target: virtual-host style
(`bucket.endpoint`) or path style (`endpoint` alone). -/
inductive RequestHost
  | virtualStyle (bucket endpoint : String)
  | pathStyle (endpoint : String)
deriving DecidableEq, Repr

/-- A bucket request: the host it is addressed to and the path segments. -/
structure BucketRequest where
  host : RequestHost
  pathSegments : List String
deriving DecidableEq, Repr

/-- Modelled from the spec: bucket names containing literal dots cannot use
virtual-host-style addressing under TLS and are rewritten to path-style inside
the signing/canonicalization layer (spec sections 4.1 and 6); the test file
notes the request "is internally staged into a path style instead of virtual
host style" (`TestMakeBucketRegionsV2`). -/
def makeBucketRequest (endpoint bucket : String) : BucketRequest :=
  if containsDot bucket then ⟨.pathStyle endpoint, [bucket]⟩
  else ⟨.virtualStyle bucket endpoint, []⟩

/-- Modelled from the spec: under TLS the endpoint's wildcard certificate
matches one extra host label only, so a virtual-host name whose bucket
contains a dot fails the hostname match, while path-style always matches
(spec section 6). -/
def tlsHostMatches : RequestHost → Bool
  | .virtualStyle bucket _ => !(containsDot bucket)
  | .pathStyle _ => true

/-- The server's view: which bucket a request addresses. -/
def resolveBucket : BucketRequest → Option String
  | ⟨.pathStyle _, [bucket]⟩ => some bucket
  | ⟨.virtualStyle bucket _, []⟩ => some bucket
  | _ => none

/-- Modelled from the spec: a bucket operation issued over TLS — the request is
built by the addressing layer, the TLS hostname check must pass, and the
server resolves the addressed bucket; on success the operation proceeds
against that bucket (spec section 6). -/
def runBucketOp (endpoint bucket : String) : Except String String :=
  if tlsHostMatches (makeBucketRequest endpoint bucket).host then
    match resolveBucket (makeBucketRequest endpoint bucket) with
    | some b => .ok b
    | none => .error "cannot resolve bucket from request"
  else .error "TLS certificate hostname mismatch"

/-- C9: for every bucket whose name contains a literal dot, the addressing
layer rewrites the request from virtual-host style to path style, and the
bucket operation succeeds, resolving to the intended bucket — the dot never
causes the operation to fail. -/
theorem C9_dotted_bucket_path_style (endpoint bucket : String)
    (hdot : containsDot bucket = true) :
    (makeBucketRequest endpoint bucket).host = .pathStyle endpoint ∧
    runBucketOp endpoint bucket = .ok bucket := by
  constructor
  · simp [makeBucketRequest, hdot]
  · simp [runBucketOp, makeBucketRequest, hdot, tlsHostMatches, resolveBucket]

/-- C9 witness: the dotted bucket name "bucket.withperiod" against the
endpoint "s3.amazonaws.com" is addressed path-style and succeeds. -/
theorem C9_witness :
    (containsDot "bucket.withperiod" = true) ∧
    ((makeBucketRequest "s3.amazonaws.com" "bucket.withperiod").host =
        .pathStyle "s3.amazonaws.com" ∧
     runBucketOp "s3.amazonaws.com" "bucket.withperiod" =
        .ok "bucket.withperiod") :=
  ⟨by decide, C9_dotted_bucket_path_style "s3.amazonaws.com" "bucket.withperiod"
    (by decide)⟩

/-- Modelled from the spec: the remote object table behind PutObject /
GetObject: (bucket, key) mapped to the stored bytes (spec sections 1 and 6). -/
structure ObjectStore where
  objects : List ((String × String) × List Nat)
deriving DecidableEq, Repr

def lookupObject (st : ObjectStore) (bucket key : String) :
    Option (List Nat) :=
  match st.objects.find? (fun e => e.1 == (bucket, key)) with
  | some e => some e.2
  | none => none

/-- Modelled from the spec: a successful PutObject stores the full input under
(bucket, key) and returns the number of bytes written
(`TestGetObjectClosedTwiceV2` checks the count against the input length). -/
def PutObject (st : ObjectStore) (bucket key : String)
    (content : List Nat) : Nat × ObjectStore :=
  (content.length, ⟨((bucket, key), content) :: st.objects⟩)

/-- Modelled from the spec: GetObject returns an Object Reader over the stored
content, positioned at offset 0 and open (spec section 4.3). -/
def GetObject (st : ObjectStore) (bucket key : String) :
    Except ErrorResponse Object :=
  match lookupObject st bucket key with
  | some content => .ok ⟨content, 0, false⟩
  | none => .error ⟨"NoSuchKey", "The specified key does not exist."⟩

/-- C10: for every successful PutObject call over an input of n bytes, the
returned byte count equals n exactly, and `Stat` on a reader obtained for the
stored object reports size n. -/
theorem C10_put_count_and_stat (st : ObjectStore) (bucket key : String)
    (content : List Nat) :
    (PutObject st bucket key content).1 = content.length ∧
    ∃ o, GetObject (PutObject st bucket key content).2 bucket key = .ok o ∧
      o.stat = .ok ⟨(content.length : Int)⟩ := by
  refine ⟨rfl, ⟨content, 0, false⟩, ?_, rfl⟩
  simp [GetObject, lookupObject, PutObject, List.find?]

/-- First value bound to a key in an ordered query-parameter or header list. -/
def getParam : List (String × String) → String → Option String
  | [], _ => none
  | (k, v) :: rest, key => if k == key then some v else getParam rest key

/-- Rendering of a query-parameter list into the canonical query string. -/
def renderQuery : List (String × String) → String
  | [] => ""
  | (k, v) :: rest => k ++ "=" ++ v ++ "&" ++ renderQuery rest

/-- Modelled from the spec: the canonical request is a deterministic,
fully-specified string representation of the request — method, canonical URI
and canonical query string — used as signing input (spec section 4.1 and the
glossary); headers and payload hash are irrelevant to a presigned GET and
omitted. -/
def canonicalRequest (path : String) (query : List (String × String)) :
    String :=
  "GET" ++ "\n" ++ path ++ "\n" ++ renderQuery query

/-- Modelled from the spec: the keyed signature over the canonical request
(HMAC in the source protocol); modelled as a concrete deterministic keyed hash
of the secret key and the message, since only determinism and coverage of the
signed material matter to the claims. -/
def macSign (secret msg : String) : Nat :=
  (secret ++ "\n" ++ msg).data.foldl
    (fun acc c => (acc * 31 + c.toNat) % 4294967296) 7

/-- The resource path of an object request. -/
def objectPath (bucket key : String) : String :=
  "/" ++ bucket ++ "/" ++ key

/-- A presigned URL: resource path, expiry timestamp, the caller-supplied
query parameters, and the embedded signature — all carried in the URL itself,
so a fetch needs no credentials (spec section 4.6 and the glossary). -/
structure PresignedURL where
  path : String
  expires : Nat
  params : List (String × String)
  signature : Nat
deriving DecidableEq, Repr

/-- Modelled from the spec: the Presigned URL Builder merges the
caller-supplied query parameters into the signed query string together with
the expiry, and embeds the signature computed over the canonical request built
from exactly those parameters — so the supplied parameters are covered by the
signature (spec section 4.6); no network call is made. -/
def presignedGetObject (secret bucket key : String) (expires : Nat)
    (reqParams : List (String × String)) : PresignedURL :=
  ⟨objectPath bucket key, expires, reqParams,
    macSign secret (canonicalRequest (objectPath bucket key)
      (reqParams ++ [("Expires", toString expires)]))⟩

/-- The response-header overrides requested through `response-*` query
parameters: `response-content-disposition` overrides `Content-Disposition`
(`TestFunctionalV2` exercises exactly this override). -/
def responseHeaders : List (String × String) → List (String × String)
  | [] => []
  | (k, v) :: rest =>
    if k == "response-content-disposition" then
      ("Content-Disposition", v) :: responseHeaders rest
    else responseHeaders rest

/-- Modelled from the spec: the remote store's handling of a presigned GET: it
recomputes the signature over the canonical request built from the signed
query parameters and rejects a mismatch; it rejects the URL after the expiry
timestamp; otherwise it serves exactly the stored object's bytes together with
the requested response-header overrides (spec sections 4.6 and 6). -/
def serveFetch (secret : String) (st : ObjectStore) (bucket key : String)
    (url : PresignedURL) (now : Nat) :
    Except ErrorResponse (List Nat × List (String × String)) :=
  if url.path ≠ objectPath bucket key then
    .error ⟨"NoSuchKey", "The specified key does not exist."⟩
  else if url.signature ≠ macSign secret (canonicalRequest url.path
      (url.params ++ [("Expires", toString url.expires)])) then
    .error ⟨"SignatureDoesNotMatch",
      "The request signature we calculated does not match the signature you provided."⟩
  else if url.expires < now then
    .error ⟨"AccessDenied", "Request has expired"⟩
  else
    match lookupObject st bucket key with
    | some content => .ok (content, responseHeaders url.params)
    | none => .error ⟨"NoSuchKey", "The specified key does not exist."⟩

theorem responseHeaders_disposition (params : List (String × String))
    (v : String)
    (h : getParam params "response-content-disposition" = some v) :
    getParam (responseHeaders params) "Content-Disposition" = some v := by
  induction params with
  | nil => simp [getParam] at h
  | cons kv rest ih =>
    obtain ⟨k, w⟩ := kv
    by_cases hk : k == "response-content-disposition"
    · simp only [getParam, if_pos hk, Option.some.injEq] at h
      simp [responseHeaders, hk, getParam, h]
    · simp only [getParam, if_neg hk] at h
      simp only [responseHeaders, if_neg hk]
      exact ih h

/-- C8: for every presigned GET URL built with an expiry and caller-supplied
query parameters including a `response-content-disposition` override, an
unauthenticated fetch of that URL at or before the expiry succeeds, returns
exactly the stored object's bytes, and the response carries the overridden
`Content-Disposition` value; the supplied parameters are merged into the
signed query string and the embedded signature is computed over a canonical
request that covers them. -/
theorem C8_presigned_get_roundtrip (secret bucket key : String)
    (st : ObjectStore) (content : List Nat) (expires now : Nat)
    (reqParams : List (String × String)) (v : String)
    (hobj : lookupObject st bucket key = some content)
    (hnow : now ≤ expires)
    (hdisp : getParam reqParams "response-content-disposition" = some v) :
    serveFetch secret st bucket key
        (presignedGetObject secret bucket key expires reqParams) now =
      .ok (content, responseHeaders reqParams) ∧
    getParam (responseHeaders reqParams) "Content-Disposition" = some v ∧
    (∀ p ∈ reqParams,
      p ∈ (presignedGetObject secret bucket key expires reqParams).params) ∧
    (presignedGetObject secret bucket key expires reqParams).signature =
      macSign secret (canonicalRequest (objectPath bucket key)
        (reqParams ++ [("Expires", toString expires)])) := by
  refine ⟨?_, responseHeaders_disposition reqParams v hdisp,
    fun p hp => hp, rfl⟩
  simp only [serveFetch, presignedGetObject, ne_eq, not_true_eq_false,
    if_false, not_false_eq_true, if_neg (by omega : ¬expires < now), hobj]

/-- C8 witness: a presigned URL for a stored 2-byte object, with a
content-disposition override and a 3600-second expiry, fetched at time 10. -/
theorem C8_witness :
    (lookupObject ⟨[(("b", "k"), [5, 6])]⟩ "b" "k" = some [5, 6] ∧
     (10 : Nat) ≤ 3600 ∧
     getParam [("response-content-disposition", "attachment")]
       "response-content-disposition" = some "attachment") ∧
    (serveFetch "topsecret" ⟨[(("b", "k"), [5, 6])]⟩ "b" "k"
        (presignedGetObject "topsecret" "b" "k" 3600
          [("response-content-disposition", "attachment")]) 10 =
      .ok ([5, 6],
        responseHeaders [("response-content-disposition", "attachment")]) ∧
     getParam (responseHeaders [("response-content-disposition", "attachment")])
       "Content-Disposition" = some "attachment" ∧
     (∀ p ∈ [("response-content-disposition", "attachment")],
       p ∈ (presignedGetObject "topsecret" "b" "k" 3600
         [("response-content-disposition", "attachment")]).params) ∧
     (presignedGetObject "topsecret" "b" "k" 3600
         [("response-content-disposition", "attachment")]).signature =
       macSign "topsecret" (canonicalRequest (objectPath "b" "k")
         ([("response-content-disposition", "attachment")] ++
           [("Expires", toString 3600)]))) :=
  ⟨⟨by decide, by decide, by decide⟩,
   C8_presigned_get_roundtrip "topsecret" "b" "k" ⟨[(("b", "k"), [5, 6])]⟩
     [5, 6] 3600 10 [("response-content-disposition", "attachment")]
     "attachment" (by decide) (by decide) (by decide)⟩

end MinioSpec
